import Mathlib

/-!
Verification of the ERP-to-catalog synchronization engine of the
crystal-bayi backend (product sync service, SOAP client wrapper,
currency service, category crawl).  Each JavaScript source function is
shallowly embedded as an executable Lean definition: JS numbers are
modelled as rationals, JS exceptions as Except values, the Mongo
collections touched by the sync as association lists keyed by the
unique key of each collection, and wall-clock instants as naturals.
-/

namespace CrystalSync

/-- JS string disjunction a || b for strings: the empty string is the
only falsy string value (an absent field is modelled as the empty
string, which behaves identically under ||). -/
def jsOr (a b : String) : String := if a = "" then b else a

/-- JS numeric disjunction x || d for an optional numeric field:
undefined and 0 are falsy. -/
def jsNumOr (x : Option ℚ) (d : ℚ) : ℚ :=
  match x with
  | none => d
  | some v => if v = 0 then d else v

/-- Truthiness of an optional JS number: undefined/null and 0 are falsy. -/
def jsTruthyNum (x : Option ℚ) : Bool :=
  match x with
  | none => false
  | some v => v != 0

/-- Substring test on character lists, used for the error-message
markers checked by the SOAP retry loop. -/
def charsContain (s pat : List Char) : Bool :=
  pat.isPrefixOf s ||
    match s with
    | [] => false
    | _ :: t => charsContain t pat

/-- JS String.prototype.includes. -/
def strIncludes (s pat : String) : Bool := charsContain s.data pat.data

/-- JS String.prototype.trim: strip leading and trailing whitespace.
Spelled out on the character list so that it evaluates in the kernel. -/
def jsTrim (s : String) : String :=
  ⟨((s.data.dropWhile Char.isWhitespace).reverse.dropWhile Char.isWhitespace).reverse⟩

/-- JS String.prototype.toUpperCase on the ASCII range. -/
def jsToUpper (s : String) : String := ⟨s.data.map Char.toUpper⟩

/-- JS Math.round: round half toward positive infinity. -/
def jsRound (x : ℚ) : ℤ := (x + 1/2).floor

/-- Math.round(x * 100) / 100, the two-decimal rounding applied to every
converted price tier (productSyncService.js line 80). -/
def round2 (x : ℚ) : ℚ := (jsRound (x * 100) : ℚ) / 100

/-- A raw ERP product row as consumed by upsertProducts and checksumOf.
fiyat holds the tiers fiyat1..fiyat15 positionally (index 0 is tier 1);
a missing tier field is none.  String fields that the code only ever
reads through || or template interpolation are plain strings, with the
empty string standing for an absent field (identical behavior). -/
structure RawProduct where
  stkno : String
  stokadi : String
  grupadi : String
  cinsi : String
  fiyat : List (Option ℚ)
  bakiye : Option ℚ
  bky : Option ℚ
  stok : Option ℚ
  birim : String
  kdv : Option ℚ
  uruntipi : String
  fgrp : String
  fagrp : String
  fatgrp : String
deriving DecidableEq, Repr

/-- Number(p.fiyatj ?? 0): the value of price tier j (1-based), with an
absent tier defaulting to 0. -/
def tierVal (p : RawProduct) (j : ℕ) : ℚ := (p.fiyat.getD (j - 1) none).getD 0

/-- The normalized currency of a raw product:
p.cinsi?.trim().toUpperCase() || "TRY" (productSyncService.js line 59). -/
def jsCurrency (c : String) : String :=
  let u := jsToUpper (jsTrim c)
  if u = "" then "TRY" else u

/-- Rendering of a rational for the checksum base string.  The exact
digits differ from JS number formatting, but the checksum is only ever
compared for equality, for which any injective rendering is adequate. -/
def ratStr (q : ℚ) : String := toString q

/-- checksumOf (productSyncService.js lines 9-15): the canonical
concatenation of stock number, name, the 15 tiers, balance, category
name and currency.  The md5 digest is abstracted to its input string:
only equality of checksums is ever observable in the model. -/
def checksumOf (p : RawProduct) : String :=
  let prices := String.intercalate "|"
    ((List.range 15).map (fun i => ratStr (jsNumOr (p.fiyat.getD i none) 0)))
  let bak := match p.bakiye with
    | none => ""
    | some b => ratStr b
  p.stkno ++ "|" ++ p.stokadi ++ "|" ++ prices ++ "|" ++ bak ++ "|" ++
    p.grupadi ++ "|" ++ p.cinsi

/-- Per-tier conversion (productSyncService.js lines 73-80): multiply by
the USD or EUR rate when the normalized currency says so, then round to
two decimals unconditionally. -/
def convTier (currency : String) (usdRate eurRate x : ℚ) : ℚ :=
  round2 (if currency = "USD" then x * usdRate
          else if currency = "EUR" then x * eurRate
          else x)

/-- The $set document built for one product by upsertProducts
(productSyncService.js lines 83-101). -/
structure SetDoc where
  stkno : String
  stokadi : String
  grupadi : String
  priceList : List ℚ
  originalPriceList : List ℚ
  cinsi : String
  bakiye : ℚ
  birim : String
  kdv : ℚ
  uruntipi : String
  fgrp : String
  fagrp : String
  fatgrp : String
  isActive : Bool
  checksum : String
  syncedAt : ℕ
  raw : RawProduct
deriving DecidableEq, Repr

/-- Build the $set document for a raw product at time now with the
rates obtained for this run (productSyncService.js lines 57-101). -/
def buildSetDoc (usdRate eurRate : ℚ) (now : ℕ) (p : RawProduct) : SetDoc :=
  let currency := jsCurrency p.cinsi
  { stkno := p.stkno
    stokadi := p.stokadi
    grupadi := p.grupadi
    priceList := (List.range 15).map
      (fun i => convTier currency usdRate eurRate (tierVal p (i + 1)))
    originalPriceList := (List.range 15).map (fun i => tierVal p (i + 1))
    cinsi := currency
    bakiye := ((p.bakiye.orElse (fun _ => p.bky)).orElse (fun _ => p.stok)).getD 0
    birim := jsOr p.birim "ADET"
    kdv := jsNumOr p.kdv 18
    uruntipi := jsOr p.uruntipi ""
    fgrp := jsOr p.fgrp ""
    fagrp := jsOr p.fagrp ""
    fatgrp := jsOr p.fatgrp ""
    isActive := true
    checksum := checksumOf p
    syncedAt := now
    raw := p }

/-- A stored Product document: the fields written by $set, plus the
image enrichment fields which are only touched by $setOnInsert
(productSyncService.js lines 103-117). -/
structure StoredProduct where
  fields : SetDoc
  imageUrl : Option String
  imageSource : Option String
  imageSyncedAt : Option ℕ
deriving DecidableEq, Repr

/-- The product collection, keyed by the unique stkno. -/
abbrev ProductStore := List (String × StoredProduct)

/-- Lookup by unique key. -/
def findDoc : ProductStore → String → Option StoredProduct
  | [], _ => none
  | e :: rest, k => if e.1 = k then some e.2 else findDoc rest k

/-- Replace the entry at a key in place, or append a fresh one. -/
def setEntry : ProductStore → String → StoredProduct → ProductStore
  | [], k, d => [(k, d)]
  | e :: rest, k, d => if e.1 = k then (k, d) :: rest else e :: setEntry rest k d

/-- One updateOne op of the bulkWrite: filter on stkno, $set the catalog
document, $setOnInsert the three image fields to null; with upsert
semantics this replaces the catalog fields of an existing document and
leaves its image fields alone, and inserts a document with null image
fields otherwise.  The returned flag is true when the op inserted. -/
def upsertOne (usdRate eurRate : ℚ) (now : ℕ) (store : ProductStore)
    (p : RawProduct) : ProductStore × Bool :=
  let d := buildSetDoc usdRate eurRate now p
  match findDoc store p.stkno with
  | some old =>
      (setEntry store p.stkno
        { fields := d
          imageUrl := old.imageUrl
          imageSource := old.imageSource
          imageSyncedAt := old.imageSyncedAt }, false)
  | none =>
      (store ++ [(p.stkno, { fields := d
                             imageUrl := none
                             imageSource := none
                             imageSyncedAt := none })], true)

/-- upsertProducts (productSyncService.js lines 40-134) applied to the
store: every product yields one upsert op; the 500-wide batching only
groups consecutive ops into bulkWrite calls and the per-batch
upserted/modified counts are summed, so the final store and the totals
are those of applying the ops one by one.  Returns the store together
with (totalInserted, matched-update ops).  Mongo would report as
modifiedCount only documents whose bytes actually changed; the second
component counts matched ops, which the verified claims do not use. -/
def upsertAll (usdRate eurRate : ℚ) (now : ℕ) :
    ProductStore → List RawProduct → ProductStore × ℕ × ℕ
  | store, [] => (store, 0, 0)
  | store, p :: rest =>
      let r := upsertOne usdRate eurRate now store p
      let res := upsertAll usdRate eurRate now r.1 rest
      (res.1, (if r.2 then 1 else 0) + res.2.1, (if r.2 then 0 else 1) + res.2.2)

/-- The last element of the run with a given stock number: with
unconditional per-op application this is the op that determines the
final document at that key. -/
def lastWith (k : String) : List RawProduct → Option RawProduct
  | [] => none
  | p :: rest =>
      match lastWith k rest with
      | some q => some q
      | none => if p.stkno = k then some p else none

/-- The image-field triple of an optional stored document; an absent
document contributes the null triple that $setOnInsert would write. -/
def imgOf (o : Option StoredProduct) : Option String × Option String × Option ℕ :=
  match o with
  | some d => (d.imageUrl, d.imageSource, d.imageSyncedAt)
  | none => (none, none, none)

/-- Forget the syncedAt timestamp of a stored document. -/
def scrubTime (d : StoredProduct) : StoredProduct :=
  { d with fields := { d.fields with syncedAt := 0 } }

/-! The SOAP client (soapService.js / its current revision).  One
attempt of a named operation either yields a result envelope or throws
with an error message; an attempt schedule assigns each attempt number
its outcome.  The retry loop is callSoapMethod (lines 40-72 of the
current revision, identical to soapService.js lines 37-81). -/

deriving instance DecidableEq for Except

/-- Outcome of one call of callSoapMethod: the returned or thrown
value, the backoff waits performed (in milliseconds, in order), and how
many attempts were issued. -/
structure CallTrace (α : Type) where
  result : Except String α
  delaysMs : List ℕ
  attempts : ℕ
deriving Repr

instance [DecidableEq α] : DecidableEq (CallTrace α) :=
  fun a b => by
    cases a; cases b
    exact decidable_of_iff _ ((CallTrace.mk.injEq _ _ _ _ _ _).to_iff).symm

/-- error.message.includes("authentication") || error.message.includes("login"):
the marker that short-circuits the retry loop. -/
def isAuthError (msg : String) : Bool :=
  strIncludes msg "authentication" || strIncludes msg "login"

/-- The message of the AppError thrown after the loop:
SOAP (method) failed: (lastError?.message || "Unknown error"). -/
def soapFailMsg (methodName : String) (lastError : Option String) : String :=
  "SOAP " ++ methodName ++ " failed: " ++
    (match lastError with
     | none => "Unknown error"
     | some e => if e = "" then "Unknown error" else e)

/-- The attempt loop of callSoapMethod.  fuel is the number of attempts
still allowed including the current one (initially retries), attempt is
the current 1-based attempt number; on a non-auth failure that is not
the last attempt the loop waits 2^attempt seconds (recorded in ms) and
continues; an auth-marked failure, or exhaustion, falls through to the
final throw. -/
def callSoapGo (methodName : String) (op : ℕ → Except String α) :
    ℕ → ℕ → Option String → List ℕ → ℕ → CallTrace α
  | 0, _, lastError, delays, cnt =>
      ⟨.error (soapFailMsg methodName lastError), delays.reverse, cnt⟩
  | fuel + 1, attempt, _, delays, cnt =>
      match op attempt with
      | .ok v => ⟨.ok v, delays.reverse, cnt + 1⟩
      | .error e =>
          if isAuthError e then
            ⟨.error (soapFailMsg methodName (some e)), delays.reverse, cnt + 1⟩
          else if fuel = 0 then
            ⟨.error (soapFailMsg methodName (some e)), delays.reverse, cnt + 1⟩
          else
            callSoapGo methodName op fuel (attempt + 1) (some e)
              (2 ^ attempt * 1000 :: delays) (cnt + 1)

/-- callSoapMethod(methodName, params, retries = 3). -/
def callSoapMethod (methodName : String) (op : ℕ → Except String α)
    (retries : ℕ) : CallTrace α :=
  callSoapGo methodName op retries 1 none [] 0

/-! Result-envelope unwrapping for the product listing operations.  The
remote protocol nests rows as result[0]?.Wrapper?.WrapperRow, which may
be absent, a single row object, or an array of rows. -/

/-- The row field of an unwrapped envelope. -/
inductive RowsField (α : Type) where
  | absent
  | single (row : α)
  | many (rows : List α)
deriving DecidableEq, Repr

/-- A result envelope for a listing operation: none when result or
result[0] is falsy, otherwise the row field. -/
abbrev Envelope (α : Type) := Option (RowsField α)

/-- getProductsWithAllPrices (current SoapService revision, lines
118-158): unwraps TTStoklar.TTStoklarRow; throws on a falsy envelope
and on a zero-row result, and its catch block rethrows every failure as
AppError("Failed to fetch products with all prices", 500). -/
def getProductsWithAllPrices (iko : Except String (Envelope RawProduct)) :
    Except String (List RawProduct) :=
  match iko with
  | .error _ => .error "Failed to fetch products with all prices"
  | .ok none => .error "Failed to fetch products with all prices"
  | .ok (some .absent) => .error "Failed to fetch products with all prices"
  | .ok (some (.single p)) => .ok [p]
  | .ok (some (.many ps)) =>
      if ps.length = 0 then .error "Failed to fetch products with all prices"
      else .ok ps

/-- getProducts (soapService.js lines 132-157, the slStoklist listing):
a falsy envelope or an absent row field yields the empty list rather
than throwing; a thrown SOAP call is rethrown as
AppError("Failed to fetch products", 500). -/
def getProductsSl (sl : Except String (Envelope RawProduct)) :
    Except String (List RawProduct) :=
  match sl with
  | .error _ => .error "Failed to fetch products"
  | .ok none => .ok []
  | .ok (some .absent) => .ok []
  | .ok (some (.single p)) => .ok [p]
  | .ok (some (.many ps)) => .ok ps

/-- The two listing operations a sync run may consult. -/
structure FetchEnv where
  iko : Except String (Envelope RawProduct)
  sl : Except String (Envelope RawProduct)
deriving Repr

/-- fetchAllErpProducts (productSyncService.js lines 17-38): call the
multi-price listing; if it returns a nonempty list use it, otherwise
fall back to the legacy single-price listing.  The boolean records
whether the fallback operation was invoked. -/
def fetchAllErpProducts (env : FetchEnv) : Except String (List RawProduct) × Bool :=
  match getProductsWithAllPrices env.iko with
  | .error e => (.error e, false)
  | .ok l =>
      if 0 < l.length then (.ok l, false)
      else
        match getProductsSl env.sl with
        | .error e => (.error e, true)
        | .ok list => (.ok list, true)

/-! The category crawl (productSyncService.js lines 136-225). -/

/-- A level-1 group row from urungruplari. -/
structure CatGroup where
  grpkod : String
  grpadi : String
deriving DecidableEq, Repr

/-- A level-2 subgroup row from altgrup; the code reads
altgrpkod || grpkod and altgrpadi || grpadi. -/
structure CatSubGroup where
  altgrpkod : String
  altgrpadi : String
  grpkod : String
  grpadi : String
deriving DecidableEq, Repr

/-- A level-3 subgroup row from altgrup2; the code reads
altgrpkod2 || grpkod and altgrpadi2 || grpadi. -/
structure CatSubGroup2 where
  altgrpkod2 : String
  altgrpadi2 : String
  grpkod : String
  grpadi : String
deriving DecidableEq, Repr

/-- The raw record kept in the _raw field of a category upsert. -/
inductive CatRaw where
  | main (g : CatGroup)
  | sub (s : CatSubGroup)
  | sub2 (s : CatSubGroup2)
deriving DecidableEq, Repr

/-- One queued category upsert (filter grpkod, $set document). -/
structure CatOp where
  grpkod : String
  grpadi : String
  level : ℕ
  parentId : Option String
  isActive : Bool
  syncedAt : ℕ
  raw : CatRaw
deriving DecidableEq, Repr

/-- The key of a level-2 subgroup: subGroup.altgrpkod || subGroup.grpkod. -/
def subKey (s : CatSubGroup) : String := jsOr s.altgrpkod s.grpkod

/-- The key of a level-3 subgroup: subGroup2.altgrpkod2 || subGroup2.grpkod. -/
def sub2Key (s : CatSubGroup2) : String := jsOr s.altgrpkod2 s.grpkod

/-- The level-1 upsert op (lines 144-160). -/
def lvl1Op (now : ℕ) (g : CatGroup) : CatOp :=
  ⟨g.grpkod, g.grpadi, 1, none, true, now, .main g⟩

/-- The level-2 upsert op (lines 165-181): parent is the level-1 code. -/
def lvl2Op (now : ℕ) (parentKod : String) (s : CatSubGroup) : CatOp :=
  ⟨subKey s, jsOr s.altgrpadi s.grpadi, 2, some parentKod, true, now, .sub s⟩

/-- The level-3 upsert op (lines 186-202): parent is the level-2 key. -/
def lvl3Op (now : ℕ) (parentKey : String) (s : CatSubGroup2) : CatOp :=
  ⟨sub2Key s, jsOr s.altgrpadi2 s.grpadi, 3, some parentKey, true, now, .sub2 s⟩

/-- The three fetches the crawl performs, as wrapper-level outcomes
(getProductGroups, getSubGroups, getSubGroups2). -/
structure CatEnv where
  mainGroups : Except String (List CatGroup)
  subGroups : String → Except String (List CatSubGroup)
  subGroups2 : String → Except String (List CatSubGroup2)

/-- The single unordered batch accumulated for a given list of level-1
groups: for each group the level-1 op, then, when its subgroup fetch
succeeds, for each subgroup the level-2 op followed by its level-3 ops
when that fetch succeeds; a failed level-2 or level-3 fetch is caught
in its own try block and contributes nothing for that branch. -/
def catOpsList (env : CatEnv) (now : ℕ) (gs : List CatGroup) : List CatOp :=
  gs.flatMap (fun g =>
    lvl1Op now g ::
      (match env.subGroups g.grpkod with
       | .error _ => []
       | .ok sgs =>
           sgs.flatMap (fun sg =>
             lvl2Op now g.grpkod sg ::
               (match env.subGroups2 (subKey sg) with
                | .error _ => []
                | .ok s2s => s2s.map (lvl3Op now (subKey sg))))))

/-- syncCategories (lines 136-225) up to the final bulkWrite: the
batch of ops it submits, or the propagated error when the level-1
fetch itself throws (the outer catch rethrows it). -/
def syncCategoriesOps (env : CatEnv) (now : ℕ) : Except String (List CatOp) :=
  match env.mainGroups with
  | .error e => .error e
  | .ok gs => .ok (catOpsList env now gs)

/-! fullSync and deltaSync (productSyncService.js lines 227-291),
modelled over abstract phase outcomes so that every combination of
phase failures is covered. -/

/-- inserted/updated counters as returned by a phase. -/
structure Counts where
  inserted : ℕ
  updated : ℕ
deriving DecidableEq, Repr

/-- The summary a sync run returns: the fetched product count (labelled
total by fullSync and fetched by deltaSync), the product counts and the
category counts. -/
structure RunSummary where
  fetched : ℕ
  products : Counts
  categories : Counts
deriving DecidableEq, Repr

/-- The SyncCursor document upserted at the end of a successful run. -/
structure CursorDoc where
  key : String
  lastSuccessfulSyncAt : ℕ
  lastSyncMode : String
deriving DecidableEq, Repr

/-- The outcomes of the three phases of one run: the product fetch, the
product upsert on the fetched list, and the category sync. -/
structure SyncPhases where
  fetch : Except String (List RawProduct)
  upsert : List RawProduct → Except String Counts
  categories : Except String Counts

/-- Shared body of fullSync and deltaSync: fetch, upsert (both
propagate their errors), then the category sync inside try/catch with
a zero-count default, then the cursor upsert keyed "products" with the
mode label and the current time.  Returns the result together with the
cursor document written, if any. -/
def runSync (mode : String) (env : SyncPhases) (now : ℕ) :
    Except String RunSummary × Option CursorDoc :=
  match env.fetch with
  | .error e => (.error e, none)
  | .ok all =>
      match env.upsert all with
      | .error e => (.error e, none)
      | .ok productResult =>
          let categoryResult := match env.categories with
            | .ok c => c
            | .error _ => ⟨0, 0⟩
          (.ok ⟨all.length, productResult, categoryResult⟩,
           some ⟨"products", now, mode⟩)

/-- fullSync (lines 227-258). -/
def fullSync (env : SyncPhases) (now : ℕ) :
    Except String RunSummary × Option CursorDoc := runSync "full" env now

/-- deltaSync (lines 260-291). -/
def deltaSync (env : SyncPhases) (now : ℕ) :
    Except String RunSummary × Option CursorDoc := runSync "delta" env now

/-! The currency service (currencyService.js). -/

/-- The process-local rate cache. -/
structure RatesState where
  usd : Option ℚ
  eur : Option ℚ
  lastUpdate : Option ℕ
deriving DecidableEq, Repr

/-- The rate values extracted from a fetched TCMB payload by the two
regex matches: some v when a ForexSelling entry for the currency was
matched, none otherwise.  The XML pattern matching is abstracted to its
result. -/
structure TcmbPayload where
  usdSell : Option ℚ
  eurSell : Option ℚ
deriving DecidableEq, Repr

/-- Outcome of the HTTP GET against the TCMB rate resource. -/
inductive TcmbOutcome where
  | ok (payload : TcmbPayload)
  | fail
deriving Repr

/-- The cache time-to-live: 24 hours in milliseconds. -/
def cacheTimeout : ℕ := 24 * 60 * 60 * 1000

/-- fetchRatesFromTCMB (currencyService.js lines 17-70), with the
configured fallback rates (parseFloat(env...) || default) resolved to
fbUsd/fbEur.  On success each matched rate overwrites the cache entry,
an unmatched one leaves it alone, lastUpdate is refreshed, and true is
returned.  On a thrown fetch: when either cached rate is falsy
(absent or 0) BOTH entries are overwritten with the fallback rates and
lastUpdate is refreshed; otherwise the cache is untouched; false is
returned.  The catch block swallows the error in both cases. -/
def fetchRatesFromTCMB (fbUsd fbEur : ℚ) (now : ℕ) (outcome : TcmbOutcome)
    (st : RatesState) : RatesState × Bool :=
  match outcome with
  | .ok payload =>
      ({ usd := match payload.usdSell with
           | some v => some v
           | none => st.usd
         eur := match payload.eurSell with
           | some v => some v
           | none => st.eur
         lastUpdate := some now }, true)
  | .fail =>
      if jsTruthyNum st.usd && jsTruthyNum st.eur then (st, false)
      else ({ usd := some fbUsd, eur := some fbEur, lastUpdate := some now }, false)

/-- this.rates[currency] for currency in USD, EUR. -/
def rateOf (st : RatesState) (currency : String) : Option ℚ :=
  if currency = "USD" then st.usd else st.eur

/-- getRate (currencyService.js lines 75-91): non-USD/EUR codes return
1 immediately; otherwise a falsy cached entry or an expired cache
triggers fetchRatesFromTCMB (whose network outcome for that call is a
parameter), and the cached value after that (or 1 when it is still
falsy) is returned, together with the updated cache. -/
def getRate (fbUsd fbEur : ℚ) (now : ℕ) (outcome : TcmbOutcome)
    (st : RatesState) (currency : String) : ℚ × RatesState :=
  if jsToUpper currency = "USD" ∨ jsToUpper currency = "EUR" then
    if jsTruthyNum (rateOf st (jsToUpper currency)) = false
        ∨ now - st.lastUpdate.getD 0 > cacheTimeout then
      (jsNumOr (rateOf (fetchRatesFromTCMB fbUsd fbEur now outcome st).1
          (jsToUpper currency)) 1,
       (fetchRatesFromTCMB fbUsd fbEur now outcome st).1)
    else
      (jsNumOr (rateOf st (jsToUpper currency)) 1, st)
  else
    (1, st)

/-! Helper lemmas. -/

theorem jsRound_eq_floor (x : ℚ) : jsRound x = Int.floor (x + 1/2) := by
  rw [jsRound, Rat.floor_def', ← Rat.floor_def]

/-- Rounding to two decimals is the identity on amounts that already
have at most two decimals. -/
theorem round2_self (q : ℚ) (h : (q * 100).den = 1) : round2 q = q := by
  have hm : ((q * 100).num : ℚ) = q * 100 := by
    exact_mod_cast (Rat.den_eq_one_iff _).mp h
  rw [round2, jsRound_eq_floor, ← hm, Int.floor_int_add]
  have h0 : Int.floor ((1 : ℚ)/2) = 0 := by norm_num
  rw [h0]
  push_cast
  rw [add_zero, hm]
  field_simp

theorem getD_map_range (f : ℕ → ℚ) (n i : ℕ) (h : i < n) :
    ((List.range n).map f).getD i 0 = f i := by
  rw [List.getD_eq_getElem?_getD]
  simp [List.getElem?_map, List.getElem?_range, h]

/-! Sample data used by the concrete witnesses and counterexamples. -/

/-- A TRY product whose single tier price 1/8 = 0.125 has three
decimals (and is exactly representable in binary floating point). -/
def pTRY : RawProduct :=
  { stkno := "S1", stokadi := "Item", grupadi := "G", cinsi := "TRY"
    fiyat := [some (1/8)], bakiye := some 5, bky := none, stok := none
    birim := "ADET", kdv := some 18, uruntipi := "", fgrp := "", fagrp := ""
    fatgrp := "" }

/-- A USD product with tier-1 price 10.00, as in the specification
example. -/
def pUSD : RawProduct :=
  { stkno := "S2", stokadi := "Dollar item", grupadi := "G", cinsi := "USD"
    fiyat := [some 10], bakiye := some 1, bky := none, stok := none
    birim := "ADET", kdv := some 18, uruntipi := "", fgrp := "", fagrp := ""
    fatgrp := "" }

/-- A product whose raw currency code is the literal string NULL. -/
def pNullCur : RawProduct :=
  { stkno := "S3", stokadi := "Null item", grupadi := "G", cinsi := "NULL"
    fiyat := [some 1], bakiye := some 1, bky := none, stok := none
    birim := "ADET", kdv := some 18, uruntipi := "", fgrp := "", fagrp := ""
    fatgrp := "" }

/-- The multi-price listing never returns an empty product list: every
zero-row outcome is turned into a throw before the return. -/
theorem getProductsWithAllPrices_pos (iko : Except String (Envelope RawProduct))
    (l : List RawProduct) (h : getProductsWithAllPrices iko = .ok l) :
    0 < l.length := by
  match iko with
  | .error e => simp [getProductsWithAllPrices] at h
  | .ok none => simp [getProductsWithAllPrices] at h
  | .ok (some .absent) => simp [getProductsWithAllPrices] at h
  | .ok (some (.single p)) =>
      simp [getProductsWithAllPrices] at h
      subst h; simp
  | .ok (some (.many ps)) =>
      by_cases hz : ps.length = 0
      · simp [getProductsWithAllPrices, hz] at h
      · simp [getProductsWithAllPrices, hz] at h
        subst h
        exact Nat.pos_of_ne_zero hz

/-- Claim C1 (code_bug evidence).  The specification requires: when the
primary multi-price listing (ikoStoklist) returns an empty list,
fetchAllErpProducts must invoke the legacy slStoklist listing and
return its result instead of failing the run.  In the code this can
never happen: getProductsWithAllPrices throws on every empty result, so
the fallback branch of fetchAllErpProducts is unreachable — the legacy
listing is never invoked on any schedule of outcomes (first conjunct),
and on the concrete failing input where ikoStoklist succeeds with zero
rows the run fails with the propagated error even though slStoklist
would have returned a product (second conjunct). -/
theorem fetchAllErpProducts_no_fallback :
    (∀ env : FetchEnv, (fetchAllErpProducts env).2 = false) ∧
    fetchAllErpProducts
        { iko := .ok (some (.many [])), sl := .ok (some (.many [pTRY])) } =
      (.error "Failed to fetch products with all prices", false) := by
  constructor
  · intro env
    cases h : getProductsWithAllPrices env.iko with
    | error e => simp [fetchAllErpProducts, h]
    | ok l =>
        have hpos := getProductsWithAllPrices_pos env.iko l h
        simp [fetchAllErpProducts, h, hpos]
  · rfl

/-- The category-phase default applied by the catch block of
fullSync/deltaSync (lines 233-240 and 266-273). -/
def catDefault (env : SyncPhases) : Counts :=
  match env.categories with
  | .ok c => c
  | .error _ => ⟨0, 0⟩

/-- Claim C2.  Cursor write gating of fullSync and deltaSync: when the
product fetch or the product upsert throws, the run fails with that
error and no SyncCursor document is written; when both succeed, the
SyncCursor keyed "products" is upserted with the mode label and the
run time and the product-phase results are returned, whatever the
category phase did (the statement quantifies over every category
outcome, including a throwing one). -/
theorem syncCursor_write_gating :
    ∀ (env : SyncPhases) (now : ℕ),
      (∀ e, env.fetch = .error e →
        fullSync env now = (.error e, none) ∧
        deltaSync env now = (.error e, none)) ∧
      (∀ ps e, env.fetch = .ok ps → env.upsert ps = .error e →
        fullSync env now = (.error e, none) ∧
        deltaSync env now = (.error e, none)) ∧
      (∀ ps pr, env.fetch = .ok ps → env.upsert ps = .ok pr →
        fullSync env now =
          (.ok ⟨ps.length, pr, catDefault env⟩, some ⟨"products", now, "full"⟩) ∧
        deltaSync env now =
          (.ok ⟨ps.length, pr, catDefault env⟩, some ⟨"products", now, "delta"⟩)) := by
  intro env now
  refine ⟨?_, ?_, ?_⟩
  · intro e he
    constructor <;> simp [fullSync, deltaSync, runSync, he]
  · intro ps e hf hu
    constructor <;> simp [fullSync, deltaSync, runSync, hf, hu]
  · intro ps pr hf hu
    constructor <;> simp [fullSync, deltaSync, runSync, hf, hu, catDefault]

/-- A run whose product fetch throws. -/
def envFetchFail : SyncPhases :=
  { fetch := .error "SOAP ikoStoklist failed: timeout"
    upsert := fun _ => .ok ⟨0, 0⟩
    categories := .ok ⟨0, 0⟩ }

/-- A run whose product upsert throws. -/
def envUpsertFail : SyncPhases :=
  { fetch := .ok [pTRY]
    upsert := fun _ => .error "batch failed"
    categories := .ok ⟨0, 0⟩ }

/-- A run where only the category phase throws. -/
def envCatFail : SyncPhases :=
  { fetch := .ok [pTRY]
    upsert := fun _ => .ok ⟨1, 0⟩
    categories := .error "Failed to fetch product groups" }

/-- Witness for claim C2 at three concrete runs: a fetch failure and an
upsert failure write no cursor, while a category-only failure still
writes the cursor and returns the product results. -/
theorem syncCursor_write_gating_witness :
    (fullSync envFetchFail 7 = (.error "SOAP ikoStoklist failed: timeout", none) ∧
     deltaSync envFetchFail 7 = (.error "SOAP ikoStoklist failed: timeout", none)) ∧
    (fullSync envUpsertFail 7 = (.error "batch failed", none) ∧
     deltaSync envUpsertFail 7 = (.error "batch failed", none)) ∧
    (fullSync envCatFail 7 =
        (.ok ⟨1, ⟨1, 0⟩, ⟨0, 0⟩⟩, some ⟨"products", 7, "full"⟩) ∧
     deltaSync envCatFail 7 =
        (.ok ⟨1, ⟨1, 0⟩, ⟨0, 0⟩⟩, some ⟨"products", 7, "delta"⟩)) :=
  ⟨(syncCursor_write_gating envFetchFail 7).1 _ rfl,
   (syncCursor_write_gating envUpsertFail 7).2.1 _ _ rfl rfl,
   (syncCursor_write_gating envCatFail 7).2.2 _ _ rfl rfl⟩

/-- Claim C5.  The uniform SOAP call primitive with maxAttempts = 3:
an operation failing twice with non-auth messages and succeeding on the
third attempt makes exactly 3 attempts (two retries) with waits of
2000 ms then 4000 ms (2 and 4 seconds, delay = 2^attempt seconds) and
returns the third result; an operation whose first failure message
carries an authentication/credential marker is not retried (one
attempt, no waits) and the error surfaces; when all three attempts fail
with non-auth messages the call fails with the AppError message built
from the last underlying error. -/
theorem callSoapMethod_retry_semantics :
    (∀ (op : ℕ → Except String ℕ) (methodName m1 m2 : String) (v : ℕ),
      op 1 = .error m1 → op 2 = .error m2 → op 3 = .ok v →
      isAuthError m1 = false → isAuthError m2 = false →
      callSoapMethod methodName op 3 = ⟨.ok v, [2000, 4000], 3⟩) ∧
    (∀ (op : ℕ → Except String ℕ) (methodName m : String),
      op 1 = .error m → isAuthError m = true →
      callSoapMethod methodName op 3 =
        ⟨.error (soapFailMsg methodName (some m)), [], 1⟩) ∧
    (∀ (op : ℕ → Except String ℕ) (methodName m1 m2 m3 : String),
      op 1 = .error m1 → op 2 = .error m2 → op 3 = .error m3 →
      isAuthError m1 = false → isAuthError m2 = false → isAuthError m3 = false →
      callSoapMethod methodName op 3 =
        ⟨.error (soapFailMsg methodName (some m3)), [2000, 4000], 3⟩) := by
  refine ⟨?_, ?_, ?_⟩
  · intro op methodName m1 m2 v h1 h2 h3 ha1 ha2
    simp [callSoapMethod, callSoapGo, h1, h2, h3, ha1, ha2]
  · intro op methodName m h1 ha
    simp [callSoapMethod, callSoapGo, h1, ha]
  · intro op methodName m1 m2 m3 h1 h2 h3 ha1 ha2 ha3
    simp [callSoapMethod, callSoapGo, h1, h2, h3, ha1, ha2, ha3]

/-- An attempt schedule failing twice then succeeding. -/
def opFlaky : ℕ → Except String ℕ :=
  fun n => match n with
    | 1 => .error "ECONNRESET"
    | 2 => .error "socket hang up"
    | _ => .ok 42

/-- An attempt schedule that always fails with a credential marker. -/
def opAuth : ℕ → Except String ℕ := fun _ => .error "login rejected"

/-- An attempt schedule that always fails with a network message. -/
def opDown : ℕ → Except String ℕ :=
  fun n => match n with
    | 1 => .error "timeout 1"
    | 2 => .error "timeout 2"
    | _ => .error "timeout 3"

/-- Witness for claim C5 at concrete attempt schedules. -/
theorem callSoapMethod_retry_semantics_witness :
    callSoapMethod "ikoStoklist" opFlaky 3 = ⟨.ok 42, [2000, 4000], 3⟩ ∧
    callSoapMethod "uuselogin" opAuth 3 =
      ⟨.error (soapFailMsg "uuselogin" (some "login rejected")), [], 1⟩ ∧
    callSoapMethod "urungruplari" opDown 3 =
      ⟨.error (soapFailMsg "urungruplari" (some "timeout 3")), [2000, 4000], 3⟩ :=
  ⟨callSoapMethod_retry_semantics.1 opFlaky _ _ _ _ rfl rfl rfl (by decide) (by decide),
   callSoapMethod_retry_semantics.2.1 opAuth _ _ rfl (by decide),
   callSoapMethod_retry_semantics.2.2 opDown _ _ _ _ rfl rfl rfl
     (by decide) (by decide) (by decide)⟩

/-! Lemmas about the product store. -/

theorem findDoc_setEntry_self (store : ProductStore) (k : String)
    (d : StoredProduct) : findDoc (setEntry store k d) k = some d := by
  induction store with
  | nil => simp [setEntry, findDoc]
  | cons e rest ih =>
      by_cases h : e.1 = k
      · simp [setEntry, findDoc, h]
      · simp [setEntry, findDoc, h, ih]

theorem findDoc_setEntry_ne (store : ProductStore) (k k' : String)
    (d : StoredProduct) (h : k ≠ k') :
    findDoc (setEntry store k d) k' = findDoc store k' := by
  induction store with
  | nil => simp [setEntry, findDoc, h]
  | cons e rest ih =>
      by_cases he : e.1 = k
      · simp [setEntry, findDoc, he, h]
      · simp [setEntry, findDoc, he, ih]

theorem findDoc_append_single (store : ProductStore) (k : String)
    (d : StoredProduct) (k' : String) :
    findDoc (store ++ [(k, d)]) k' =
      match findDoc store k' with
      | some x => some x
      | none => if k = k' then some d else none := by
  induction store with
  | nil => simp [findDoc]
  | cons e rest ih =>
      by_cases he : e.1 = k'
      · simp [findDoc, he]
      · simp [findDoc, he, ih]

/-- The effect of one product upsert op on lookups: the op replaces the
catalog fields at its own key while carrying the previous image fields
(the null triple on a fresh insert), and leaves every other key
untouched. -/
theorem findDoc_upsertOne (u e : ℚ) (t : ℕ) (store : ProductStore)
    (p : RawProduct) (k : String) :
    findDoc (upsertOne u e t store p).1 k =
      if p.stkno = k then
        some { fields := buildSetDoc u e t p
               imageUrl := (imgOf (findDoc store k)).1
               imageSource := (imgOf (findDoc store k)).2.1
               imageSyncedAt := (imgOf (findDoc store k)).2.2 }
      else findDoc store k := by
  unfold upsertOne
  cases hF : findDoc store p.stkno with
  | some old =>
      by_cases hk : p.stkno = k
      · subst hk
        simp [findDoc_setEntry_self, hF, imgOf]
      · simp [hk, findDoc_setEntry_ne _ _ _ _ hk]
  | none =>
      by_cases hk : p.stkno = k
      · subst hk
        simp [findDoc_append_single, hF, imgOf]
      · rw [findDoc_append_single]
        simp [hk]
        cases findDoc store k <;> simp [hk]

/-- The inserted flag of one op is set exactly when the key is new. -/
theorem upsertOne_flag (u e : ℚ) (t : ℕ) (store : ProductStore)
    (p : RawProduct) :
    (upsertOne u e t store p).2 = (findDoc store p.stkno).isNone := by
  unfold upsertOne
  cases hF : findDoc store p.stkno <;> simp

/-- The final document at each key after a whole run of upserts: keys
not named by any op are untouched; a key named by at least one op holds
the catalog fields of the last op for that key, with the image fields
the key had before the run (the null triple when it was absent). -/
theorem findDoc_upsertAll (u e : ℚ) (t : ℕ) (ps : List RawProduct) :
    ∀ (store : ProductStore) (k : String),
      findDoc (upsertAll u e t store ps).1 k =
        match lastWith k ps with
        | some p =>
            some { fields := buildSetDoc u e t p
                   imageUrl := (imgOf (findDoc store k)).1
                   imageSource := (imgOf (findDoc store k)).2.1
                   imageSyncedAt := (imgOf (findDoc store k)).2.2 }
        | none => findDoc store k := by
  induction ps with
  | nil => intro store k; simp [upsertAll, lastWith]
  | cons p rest ih =>
      intro store k
      have step : findDoc (upsertAll u e t store (p :: rest)).1 k
          = findDoc (upsertAll u e t (upsertOne u e t store p).1 rest).1 k := rfl
      rw [step, ih]
      cases hL : lastWith k rest with
      | some q =>
          have hcons : lastWith k (p :: rest) = some q := by
            simp [lastWith, hL]
          rw [hcons]
          rw [findDoc_upsertOne]
          by_cases hk : p.stkno = k
          · simp [hk, imgOf]
          · simp [hk]
      | none =>
          have hcons : lastWith k (p :: rest)
              = if p.stkno = k then some p else none := by
            simp [lastWith, hL]
          rw [hcons, findDoc_upsertOne]
          by_cases hk : p.stkno = k
          · simp [hk]
          · simp [hk]

/-- When every op key is already present, a run inserts nothing. -/
theorem upsertAll_inserted_zero (u e : ℚ) (t : ℕ) (ps : List RawProduct) :
    ∀ store : ProductStore,
      (∀ p ∈ ps, findDoc store p.stkno ≠ none) →
      (upsertAll u e t store ps).2.1 = 0 := by
  induction ps with
  | nil => intro store _; simp [upsertAll]
  | cons p rest ih =>
      intro store h
      have hp : findDoc store p.stkno ≠ none := h p (by simp)
      have hflag : (upsertOne u e t store p).2 = false := by
        rw [upsertOne_flag]
        cases hF : findDoc store p.stkno with
        | none => exact absurd hF hp
        | some old => simp
      have hrest : ∀ q ∈ rest, findDoc (upsertOne u e t store p).1 q.stkno ≠ none := by
        intro q hq
        rw [findDoc_upsertOne]
        by_cases hk : p.stkno = q.stkno
        · simp [hk]
        · simp [hk]
          exact h q (List.mem_cons_of_mem _ hq)
      have := ih (upsertOne u e t store p).1 hrest
      simp [upsertAll, hflag, this]

/-- An element of the run always has a last op at its own key. -/
theorem lastWith_of_mem (ps : List RawProduct) (p : RawProduct)
    (hp : p ∈ ps) : lastWith p.stkno ps ≠ none := by
  induction ps with
  | nil => cases hp
  | cons q rest ih =>
      cases hL : lastWith p.stkno rest with
      | some r => simp [lastWith, hL]
      | none =>
          rcases List.mem_cons.mp hp with h | h
          · subst h
            simp [lastWith, hL]
          · exact absurd hL (ih h)

/-- Claim C9.  The image enrichment fields are written only through
$setOnInsert: a fresh insert sets imageUrl/imageSource/imageSyncedAt to
null, and the upsert of an already-present product carries the previous
image fields unchanged while the catalog fields are replaced with the
newly built $set document. -/
theorem image_fields_preserved :
    ∀ (u e : ℚ) (t : ℕ) (store : ProductStore) (p : RawProduct),
      (∀ old, findDoc store p.stkno = some old →
        findDoc (upsertOne u e t store p).1 p.stkno =
          some { fields := buildSetDoc u e t p
                 imageUrl := old.imageUrl
                 imageSource := old.imageSource
                 imageSyncedAt := old.imageSyncedAt } ∧
        (upsertOne u e t store p).2 = false) ∧
      (findDoc store p.stkno = none →
        findDoc (upsertOne u e t store p).1 p.stkno =
          some { fields := buildSetDoc u e t p
                 imageUrl := none
                 imageSource := none
                 imageSyncedAt := none } ∧
        (upsertOne u e t store p).2 = true) := by
  intro u e t store p
  constructor
  · intro old hold
    constructor
    · rw [findDoc_upsertOne]
      simp [hold, imgOf]
    · rw [upsertOne_flag, hold]
      rfl
  · intro hnone
    constructor
    · rw [findDoc_upsertOne]
      simp [hnone, imgOf]
    · rw [upsertOne_flag, hnone]
      rfl

/-- A store holding the TRY sample product with image fields filled in
by the enrichment job. -/
def storeWithImage : ProductStore :=
  [("S1", { fields := buildSetDoc 1 1 0 pTRY
            imageUrl := some "https://img.example/s1.jpg"
            imageSource := some "woocommerce"
            imageSyncedAt := some 3 })]

/-- Witness for claim C9: re-syncing the stored product replaces its
catalog fields but keeps the enrichment fields, and inserting it into
an empty store initializes them to null. -/
theorem image_fields_preserved_witness :
    (findDoc (upsertOne 1 1 9 storeWithImage pTRY).1 pTRY.stkno =
      some { fields := buildSetDoc 1 1 9 pTRY
             imageUrl := some "https://img.example/s1.jpg"
             imageSource := some "woocommerce"
             imageSyncedAt := some 3 } ∧
     (upsertOne 1 1 9 storeWithImage pTRY).2 = false) ∧
    (findDoc (upsertOne 1 1 9 [] pTRY).1 pTRY.stkno =
      some { fields := buildSetDoc 1 1 9 pTRY
             imageUrl := none
             imageSource := none
             imageSyncedAt := none } ∧
     (upsertOne 1 1 9 [] pTRY).2 = true) :=
  ⟨(image_fields_preserved 1 1 9 storeWithImage pTRY).1 _ rfl,
   (image_fields_preserved 1 1 9 [] pTRY).2 rfl⟩

/-- Claim C3, amended.  Re-running the product reconciliation with an
unchanged fetched catalog and unchanged rates leaves every stored
document identical except for the syncedAt timestamp, and the second
run inserts nothing. -/
theorem deltaSync_idempotent_mod_syncedAt (u e : ℚ) (t1 t2 : ℕ)
    (store0 : ProductStore) (ps : List RawProduct) :
    (∀ k, (findDoc (upsertAll u e t2 (upsertAll u e t1 store0 ps).1 ps).1 k).map scrubTime
        = (findDoc (upsertAll u e t1 store0 ps).1 k).map scrubTime) ∧
    (upsertAll u e t2 (upsertAll u e t1 store0 ps).1 ps).2.1 = 0 := by
  constructor
  · intro k
    rw [findDoc_upsertAll, findDoc_upsertAll]
    cases hL : lastWith k ps with
    | none => rfl
    | some p => rfl
  · apply upsertAll_inserted_zero
    intro p hp
    rw [findDoc_upsertAll]
    cases hL : lastWith p.stkno ps with
    | none => exact absurd hL (lastWith_of_mem ps p hp)
    | some q => simp

/-- The product store after one reconciliation of the one-product
catalog at time 0, then after re-reconciling it at time 1. -/
def runOnceStore : ProductStore := (upsertAll 1 1 0 [] [pTRY]).1

/-- See runOnceStore. -/
def runTwiceStore : ProductStore := (upsertAll 1 1 1 runOnceStore [pTRY]).1

/-- Claim C3, counterexample to the claim as stated: with an unchanged
upstream catalog the documents stored by two successive runs are not
identical field-for-field — the syncedAt field records the run-local
time (0 then 1), so the two stored documents differ. -/
theorem deltaSync_not_field_identical :
    ((findDoc runOnceStore "S1").map fun d => d.fields.syncedAt) = some 0 ∧
    ((findDoc runTwiceStore "S1").map fun d => d.fields.syncedAt) = some 1 ∧
    findDoc runOnceStore "S1" ≠ findDoc runTwiceStore "S1" := by
  refine ⟨rfl, rfl, ?_⟩
  intro h
  have h2 : ((findDoc runTwiceStore "S1").map fun d => d.fields.syncedAt)
      = some 0 := by rw [← h]; rfl
  have h3 : ((findDoc runTwiceStore "S1").map fun d => d.fields.syncedAt)
      = some 1 := rfl
  rw [h2] at h3
  exact absurd (Option.some.inj h3) (by decide)

/-! Lemmas about the built $set document. -/

theorem buildSetDoc_cinsi (u e : ℚ) (t : ℕ) (p : RawProduct) :
    (buildSetDoc u e t p).cinsi = jsCurrency p.cinsi := rfl

theorem buildSetDoc_priceList_getD (u e : ℚ) (t : ℕ) (p : RawProduct)
    (i : ℕ) (h : i < 15) :
    (buildSetDoc u e t p).priceList.getD i 0 =
      convTier (jsCurrency p.cinsi) u e (tierVal p (i + 1)) := by
  show ((List.range 15).map
      (fun j => convTier (jsCurrency p.cinsi) u e (tierVal p (j + 1)))).getD i 0 = _
  rw [getD_map_range _ 15 i h]

theorem buildSetDoc_originalPriceList_getD (u e : ℚ) (t : ℕ) (p : RawProduct)
    (i : ℕ) (h : i < 15) :
    (buildSetDoc u e t p).originalPriceList.getD i 0 = tierVal p (i + 1) := by
  show ((List.range 15).map (fun j => tierVal p (j + 1))).getD i 0 = _
  rw [getD_map_range _ 15 i h]

theorem round2_zero : round2 0 = 0 := by
  rw [round2, jsRound_eq_floor]
  norm_num

theorem convTier_zero (c : String) (u e : ℚ) : convTier c u e 0 = 0 := by
  unfold convTier
  split_ifs <;> simp [round2_zero]

/-- Claim C4, amended.  For every raw product and tier: the original
price list always keeps the unconverted tier amount; when the
normalized currency is USD (resp. EUR) the converted tier is the amount
times the USD (resp. EUR) rate rounded half-up to the cent; for every
other currency the converted tier is the amount itself rounded half-up
to the cent — which equals the amount exactly whenever the amount has
at most two decimals, but not in general (the rounding is applied
unconditionally, see the counterexample). -/
theorem priceList_conversion_amended :
    ∀ (u e : ℚ) (t : ℕ) (p : RawProduct) (i : ℕ), i < 15 →
      (buildSetDoc u e t p).originalPriceList.getD i 0 = tierVal p (i + 1) ∧
      ((buildSetDoc u e t p).cinsi = "USD" →
        (buildSetDoc u e t p).priceList.getD i 0 = round2 (tierVal p (i + 1) * u)) ∧
      ((buildSetDoc u e t p).cinsi = "EUR" →
        (buildSetDoc u e t p).priceList.getD i 0 = round2 (tierVal p (i + 1) * e)) ∧
      ((buildSetDoc u e t p).cinsi ≠ "USD" → (buildSetDoc u e t p).cinsi ≠ "EUR" →
        (buildSetDoc u e t p).priceList.getD i 0 = round2 (tierVal p (i + 1))) ∧
      ((buildSetDoc u e t p).cinsi ≠ "USD" → (buildSetDoc u e t p).cinsi ≠ "EUR" →
        (tierVal p (i + 1) * 100).den = 1 →
        (buildSetDoc u e t p).priceList.getD i 0 = tierVal p (i + 1)) := by
  intro u e t p i h
  have hc := buildSetDoc_cinsi u e t p
  have hP := buildSetDoc_priceList_getD u e t p i h
  have hO := buildSetDoc_originalPriceList_getD u e t p i h
  refine ⟨hO, ?_, ?_, ?_, ?_⟩
  · intro hU
    rw [hc] at hU
    rw [hP, convTier, hU]
    simp
  · intro hE
    rw [hc] at hE
    rw [hP, convTier, hE]
    simp
  · intro hU hE
    rw [hc] at hU hE
    rw [hP, convTier]
    simp [hU, hE]
  · intro hU hE hden
    rw [hc] at hU hE
    rw [hP, convTier]
    simp [hU, hE]
    exact round2_self _ hden

/-- Witness for claim C4 at the specification example: a 10.00 USD
tier-1 price at rate 33.50 is stored as 335.00 with original 10.00. -/
theorem priceList_conversion_amended_witness :
    (buildSetDoc (67/2) (181/5) 0 pUSD).priceList.getD 0 0 = 335 ∧
    (buildSetDoc (67/2) (181/5) 0 pUSD).originalPriceList.getD 0 0 = 10 := by
  have h := priceList_conversion_amended (67/2) (181/5) 0 pUSD 0 (by norm_num)
  constructor
  · have hU : (buildSetDoc (67/2) (181/5) 0 pUSD).cinsi = "USD" := by decide
    rw [h.2.1 hU]
    have ht : tierVal pUSD (0 + 1) = 10 := rfl
    rw [ht, round2, jsRound_eq_floor]
    norm_num
  · rw [h.1]
    rfl

/-- Claim C4, counterexample to the claim as stated: the code rounds
the unchanged branch too, so a TRY product whose tier-1 price 1/8
(0.125) has three decimals is stored with priceList tier 1 = 0.13,
which differs from its originalPriceList tier 1 = 0.125, while the
claim asserts the TRY priceList equals the originalPriceList exactly. -/
theorem priceList_rounds_try_counterexample :
    (buildSetDoc 1 1 0 pTRY).cinsi = "TRY" ∧
    (buildSetDoc 1 1 0 pTRY).originalPriceList.getD 0 0 = 1/8 ∧
    (buildSetDoc 1 1 0 pTRY).priceList.getD 0 0 = 13/100 ∧
    (13/100 : ℚ) ≠ 1/8 := by
  refine ⟨by decide, ?_, ?_, by norm_num⟩
  · rw [buildSetDoc_originalPriceList_getD 1 1 0 pTRY 0 (by norm_num)]
    rfl
  · rw [buildSetDoc_priceList_getD 1 1 0 pTRY 0 (by norm_num)]
    have hcur : jsCurrency pTRY.cinsi = "TRY" := by decide
    have ht : tierVal pTRY (0 + 1) = 1/8 := rfl
    rw [hcur, ht, convTier, if_neg (by decide), if_neg (by decide),
      round2, jsRound_eq_floor]
    norm_num

/-- Claim C7, amended.  Every stored currency is nonempty; a blank or
missing raw code (empty after trimming) is defaulted to TRY; every
other raw code — including the literal string NULL, which the claim
wrongly lists as defaulted — is stored trimmed and uppercased as is;
and both price lists always carry exactly 15 tiers, tiers missing from
the raw record defaulting to 0. -/
theorem currency_and_tiers_amended :
    ∀ (u e : ℚ) (t : ℕ) (p : RawProduct),
      (buildSetDoc u e t p).cinsi ≠ "" ∧
      (jsToUpper (jsTrim p.cinsi) = "" → (buildSetDoc u e t p).cinsi = "TRY") ∧
      (jsToUpper (jsTrim p.cinsi) ≠ "" →
        (buildSetDoc u e t p).cinsi = jsToUpper (jsTrim p.cinsi)) ∧
      (buildSetDoc u e t p).priceList.length = 15 ∧
      (buildSetDoc u e t p).originalPriceList.length = 15 ∧
      (∀ i, i < 15 → p.fiyat.getD i none = none →
        (buildSetDoc u e t p).originalPriceList.getD i 0 = 0 ∧
        (buildSetDoc u e t p).priceList.getD i 0 = 0) := by
  intro u e t p
  have hc := buildSetDoc_cinsi u e t p
  refine ⟨?_, ?_, ?_, ?_, ?_, ?_⟩
  · rw [hc, jsCurrency]
    by_cases hu : jsToUpper (jsTrim p.cinsi) = "" <;> simp [hu]
  · intro hu
    rw [hc, jsCurrency]
    simp [hu]
  · intro hu
    rw [hc, jsCurrency]
    simp [hu]
  · simp [buildSetDoc]
  · simp [buildSetDoc]
  · intro i hi hmiss
    have ht : tierVal p (i + 1) = 0 := by
      rw [tierVal]
      simp only [Nat.add_sub_cancel]
      rw [hmiss]
      rfl
    constructor
    · rw [buildSetDoc_originalPriceList_getD u e t p i hi, ht]
    · rw [buildSetDoc_priceList_getD u e t p i hi, ht, convTier_zero]

/-- A raw product with a whitespace-only currency code and no price
tier fields at all. -/
def pBlankCur : RawProduct :=
  { stkno := "S4", stokadi := "Blank", grupadi := "G", cinsi := "   "
    fiyat := [], bakiye := none, bky := none, stok := none
    birim := "", kdv := none, uruntipi := "", fgrp := "", fagrp := ""
    fatgrp := "" }

/-- Witness for claim C7: the blank-currency product defaults to TRY
with 15 zero-defaulted tiers, and a nonblank code stays nonempty. -/
theorem currency_and_tiers_amended_witness :
    (buildSetDoc 1 1 0 pBlankCur).cinsi = "TRY" ∧
    (buildSetDoc 1 1 0 pBlankCur).priceList.length = 15 ∧
    (buildSetDoc 1 1 0 pBlankCur).originalPriceList.length = 15 ∧
    (buildSetDoc 1 1 0 pBlankCur).originalPriceList.getD 2 0 = 0 ∧
    (buildSetDoc 1 1 0 pBlankCur).priceList.getD 2 0 = 0 ∧
    (buildSetDoc 1 1 0 pTRY).cinsi ≠ "" := by
  have h := currency_and_tiers_amended 1 1 0 pBlankCur
  have hmiss := h.2.2.2.2.2 2 (by norm_num) rfl
  exact ⟨h.2.1 (by decide), h.2.2.2.1, h.2.2.2.2.1, hmiss.1, hmiss.2,
    (currency_and_tiers_amended 1 1 0 pTRY).1⟩

/-- Claim C7, counterexample to the claim as stated: the raw currency
code NULL is not defaulted to the local currency — the stored currency
is the literal string NULL (the code only tests for a falsy string,
and NULL is truthy). -/
theorem currency_null_string_kept :
    (buildSetDoc 1 1 0 pNullCur).cinsi = "NULL" ∧ ("NULL" : String) ≠ "TRY" :=
  ⟨by decide, by decide⟩

/-- Claim C6.  Partial-failure isolation of the category crawl: when
the level-1 fetch succeeds, the crawl always produces its single final
batch, containing the level-1 op of every fetched group, the level-2 op
of every subgroup whose parent fetch succeeded, and the level-3 op of
every subgroup2 whose parent fetch succeeded — these memberships hold
for every outcome environment, in particular when the fetches of other
branches throw, so a failing branch only loses its own subtree; and
when the level-1 fetch itself throws the error propagates to the
caller. -/
theorem syncCategories_partial_failure_isolation :
    ∀ (env : CatEnv) (now : ℕ),
      (∀ gs, env.mainGroups = .ok gs →
        syncCategoriesOps env now = .ok (catOpsList env now gs) ∧
        (∀ g ∈ gs, lvl1Op now g ∈ catOpsList env now gs) ∧
        (∀ g ∈ gs, ∀ sgs, env.subGroups g.grpkod = .ok sgs →
          ∀ sg ∈ sgs,
            lvl2Op now g.grpkod sg ∈ catOpsList env now gs ∧
            (∀ s2s, env.subGroups2 (subKey sg) = .ok s2s →
              ∀ s2 ∈ s2s, lvl3Op now (subKey sg) s2 ∈ catOpsList env now gs))) ∧
      (∀ e, env.mainGroups = .error e → syncCategoriesOps env now = .error e) := by
  intro env now
  constructor
  · intro gs hgs
    refine ⟨by simp [syncCategoriesOps, hgs], ?_, ?_⟩
    · intro g hg
      rw [catOpsList]
      exact List.mem_flatMap.mpr ⟨g, hg, List.mem_cons_self _ _⟩
    · intro g hg sgs hsgs sg hsg
      constructor
      · rw [catOpsList]
        refine List.mem_flatMap.mpr ⟨g, hg, List.mem_cons_of_mem _ ?_⟩
        rw [hsgs]
        exact List.mem_flatMap.mpr ⟨sg, hsg, List.mem_cons_self _ _⟩
      · intro s2s hs2s s2 hs2
        rw [catOpsList]
        refine List.mem_flatMap.mpr ⟨g, hg, List.mem_cons_of_mem _ ?_⟩
        rw [hsgs]
        refine List.mem_flatMap.mpr ⟨sg, hsg, List.mem_cons_of_mem _ ?_⟩
        rw [hs2s]
        exact List.mem_map_of_mem _ hs2
  · intro e he
    simp [syncCategoriesOps, he]

/-- Two level-1 groups for the category witness. -/
def gA : CatGroup := ⟨"A", "Group A"⟩

/-- See gA. -/
def gB : CatGroup := ⟨"B", "Group B"⟩

/-- The level-2 subgroup of group B. -/
def sgB : CatSubGroup := ⟨"B1", "Sub B1", "B", "Group B"⟩

/-- The level-3 subgroup of subgroup B1. -/
def s2B : CatSubGroup2 := ⟨"B11", "Sub B11", "B1", "Sub B1"⟩

/-- A crawl environment where fetching the level-2 subgroups of group A
throws while the sibling branch under B is fully available. -/
def catEnvC : CatEnv :=
  { mainGroups := .ok [gA, gB]
    subGroups := fun k =>
      if k = "A" then .error "Failed to fetch sub groups"
      else if k = "B" then .ok [sgB] else .ok []
    subGroups2 := fun k => if k = "B1" then .ok [s2B] else .ok [] }

/-- Witness for claim C6: with the branch under A failing, the final
batch still exists and contains both level-1 ops, the level-2 op under B and
the level-3 op under B1. -/
theorem syncCategories_partial_failure_isolation_witness :
    syncCategoriesOps catEnvC 5 = .ok (catOpsList catEnvC 5 [gA, gB]) ∧
    lvl1Op 5 gA ∈ catOpsList catEnvC 5 [gA, gB] ∧
    lvl1Op 5 gB ∈ catOpsList catEnvC 5 [gA, gB] ∧
    lvl2Op 5 "B" sgB ∈ catOpsList catEnvC 5 [gA, gB] ∧
    lvl3Op 5 (subKey sgB) s2B ∈ catOpsList catEnvC 5 [gA, gB] := by
  have h := (syncCategories_partial_failure_isolation catEnvC 5).1 [gA, gB] rfl
  have hB := h.2.2 gB (by simp) [sgB] rfl sgB (by simp)
  exact ⟨h.1, h.2.1 gA (by simp), h.2.1 gB (by simp), hB.1,
    hB.2 [s2B] rfl s2B (by simp)⟩

/-- A cached amount is usable exactly when it is truthy; a falsy one
makes the JS disjunction fall through to its default. -/
theorem jsNumOr_falsy (x : Option ℚ) (d : ℚ) (h : jsTruthyNum x = false) :
    jsNumOr x d = d := by
  match x with
  | none => rfl
  | some v =>
      simp [jsTruthyNum] at h
      simp [jsNumOr, h]

theorem jsNumOr_truthy (v d : ℚ) (h : v ≠ 0) : jsNumOr (some v) d = v := by
  simp [jsNumOr, h]

theorem rateOf_usd (st : RatesState) : rateOf st "USD" = st.usd := by
  rw [rateOf, if_pos rfl]

theorem rateOf_eur (st : RatesState) : rateOf st "EUR" = st.eur := by
  rw [rateOf, if_neg (by decide)]

/-- Claim C8, amended.  A refresh whose HTTP fetch succeeds returns
true; one whose fetch throws returns false and never throws; after a
thrown fetch, when BOTH cached rates are usable the cache is left
unchanged, and otherwise — including when exactly one rate is cached —
the configured fallback rates overwrite BOTH entries and lastUpdate is
refreshed (so a partially cached value is NOT left in place, see the
counterexample). -/
theorem fetchRates_failure_semantics_amended :
    ∀ (fbUsd fbEur : ℚ) (now : ℕ) (st : RatesState),
      (∀ payload, (fetchRatesFromTCMB fbUsd fbEur now (.ok payload) st).2 = true) ∧
      (fetchRatesFromTCMB fbUsd fbEur now .fail st).2 = false ∧
      (jsTruthyNum st.usd = true → jsTruthyNum st.eur = true →
        (fetchRatesFromTCMB fbUsd fbEur now .fail st).1 = st) ∧
      (jsTruthyNum st.usd = false ∨ jsTruthyNum st.eur = false →
        (fetchRatesFromTCMB fbUsd fbEur now .fail st).1 =
          { usd := some fbUsd, eur := some fbEur, lastUpdate := some now }) := by
  intro fbUsd fbEur now st
  refine ⟨fun payload => rfl, ?_, ?_, ?_⟩
  · by_cases h : jsTruthyNum st.usd && jsTruthyNum st.eur <;>
      simp [fetchRatesFromTCMB, h]
  · intro hu he
    simp [fetchRatesFromTCMB, hu, he]
  · intro h
    rcases h with h | h <;> simp [fetchRatesFromTCMB, h]

/-- The partially cached state: a usable USD rate, no EUR rate. -/
def stPartial : RatesState := ⟨some 50, none, some 0⟩

/-- Claim C8, counterexample to the claim as stated: a failing refresh
from the partially cached state overwrites the existing cached USD rate
50 with the configured fallback 33.50 instead of leaving it in place. -/
theorem fallback_overwrites_partial_cache :
    stPartial.usd = some 50 ∧
    (fetchRatesFromTCMB (67/2) (181/5) 5 .fail stPartial).1.usd = some (67/2) ∧
    (fetchRatesFromTCMB (67/2) (181/5) 5 .fail stPartial).1.usd ≠ stPartial.usd := by
  have hcond : (jsTruthyNum stPartial.usd && jsTruthyNum stPartial.eur) = false := by
    simp [stPartial, jsTruthyNum]
  have h1 : (fetchRatesFromTCMB (67/2) (181/5) 5 .fail stPartial).1.usd
      = some (67/2) := by
    simp [fetchRatesFromTCMB, hcond]
  refine ⟨rfl, h1, ?_⟩
  rw [h1]
  simp [stPartial]
  norm_num

/-- Witness for claim C8: with both rates cached and usable, a failing
refresh leaves the cache untouched and returns false, and a successful
refresh returns true. -/
theorem fetchRates_failure_semantics_amended_witness :
    (fetchRatesFromTCMB (67/2) (181/5) 5 .fail ⟨some 50, some 60, some 0⟩).1 =
      ⟨some 50, some 60, some 0⟩ ∧
    (fetchRatesFromTCMB (67/2) (181/5) 5 .fail ⟨some 50, some 60, some 0⟩).2 = false ∧
    (fetchRatesFromTCMB (67/2) (181/5) 5 (.ok ⟨some 40, some 44⟩)
        ⟨some 50, some 60, some 0⟩).2 = true ∧
    (fetchRatesFromTCMB (67/2) (181/5) 5 .fail stPartial).1 =
      ⟨some (67/2), some (181/5), some 5⟩ := by
  have hb := fetchRates_failure_semantics_amended (67/2) (181/5) 5
    ⟨some 50, some 60, some 0⟩
  have hp := fetchRates_failure_semantics_amended (67/2) (181/5) 5 stPartial
  refine ⟨hb.2.2.1 ?_ ?_, hb.2.1, hb.1 ⟨some 40, some 44⟩, hp.2.2.2 ?_⟩
  · simp [jsTruthyNum]
  · simp [jsTruthyNum]
  · right
    simp [stPartial, jsTruthyNum]

/-- The ForexSelling match of a fetched payload for one requested
currency (USD or EUR). -/
def sellOf (payload : TcmbPayload) (currency : String) : Option ℚ :=
  if currency = "USD" then payload.usdSell else payload.eurSell

/-- The configured fallback rate for one requested currency. -/
def fallbackOf (fbUsd fbEur : ℚ) (currency : String) : ℚ :=
  if currency = "USD" then fbUsd else fbEur

/-- Claim C10, amended.  For either requested currency (USD or EUR): a
refresh whose fetch succeeds but whose payload has no ForexSelling
entry for that currency, from a state with no usable cached rate for
it, still records a fresh lastUpdate and reports success and applies no
fallback (the cached entry for that currency stays as it was); but the
missing rate defeats the cache: every subsequent getRate for that
currency re-runs a refresh even within the time-to-live, returning 1
when that refresh again succeeds without the entry, and the configured
fallback rate for that currency — not 1 — when the re-fetch throws. -/
theorem missing_forexselling_semantics_amended :
    ∀ (fbUsd fbEur : ℚ) (t0 : ℕ) (st : RatesState) (payload : TcmbPayload)
      (c : String), c = "USD" ∨ c = "EUR" →
      sellOf payload c = none → jsTruthyNum (rateOf st c) = false →
      fallbackOf fbUsd fbEur c ≠ 0 →
      (fetchRatesFromTCMB fbUsd fbEur t0 (.ok payload) st).2 = true ∧
      (fetchRatesFromTCMB fbUsd fbEur t0 (.ok payload) st).1.lastUpdate = some t0 ∧
      rateOf (fetchRatesFromTCMB fbUsd fbEur t0 (.ok payload) st).1 c = rateOf st c ∧
      (∀ t1 p2, sellOf p2 c = none →
        (getRate fbUsd fbEur t1 (.ok p2)
          (fetchRatesFromTCMB fbUsd fbEur t0 (.ok payload) st).1 c).1 = 1) ∧
      (∀ t1,
        (getRate fbUsd fbEur t1 .fail
          (fetchRatesFromTCMB fbUsd fbEur t0 (.ok payload) st).1 c).1 =
          fallbackOf fbUsd fbEur c) := by
  intro fbUsd fbEur t0 st payload c hc hpe hse hfb
  rcases hc with rfl | rfl
  · rw [sellOf, if_pos rfl] at hpe
    rw [rateOf_usd] at hse
    rw [fallbackOf, if_pos rfl] at hfb
    have hup : jsToUpper "USD" = "USD" := by decide
    have husd : (fetchRatesFromTCMB fbUsd fbEur t0 (.ok payload) st).1.usd = st.usd := by
      rw [fetchRatesFromTCMB, hpe]
    refine ⟨rfl, rfl, by rw [rateOf_usd, rateOf_usd, husd], ?_, ?_⟩
    · intro t1 p2 hp2
      rw [sellOf, if_pos rfl] at hp2
      rw [getRate, hup, if_pos (Or.inl rfl),
        if_pos (Or.inl (by rw [rateOf_usd, husd, hse]))]
      have husd2 : (fetchRatesFromTCMB fbUsd fbEur t1 (.ok p2)
          (fetchRatesFromTCMB fbUsd fbEur t0 (.ok payload) st).1).1.usd = st.usd := by
        rw [fetchRatesFromTCMB, hp2]
        exact husd
      rw [rateOf_usd, husd2]
      exact jsNumOr_falsy st.usd 1 hse
    · intro t1
      rw [getRate, hup, if_pos (Or.inl rfl),
        if_pos (Or.inl (by rw [rateOf_usd, husd, hse]))]
      set st1 := (fetchRatesFromTCMB fbUsd fbEur t0 (.ok payload) st).1 with hst1
      have hcond : (jsTruthyNum st1.usd && jsTruthyNum st1.eur) = false := by
        rw [husd, hse, Bool.false_and]
      have hfail : (fetchRatesFromTCMB fbUsd fbEur t1 .fail st1).1 =
          { usd := some fbUsd, eur := some fbEur, lastUpdate := some t1 } := by
        rw [fetchRatesFromTCMB, hcond]
        simp
      rw [rateOf_usd, hfail, fallbackOf, if_pos rfl]
      exact jsNumOr_truthy fbUsd 1 hfb
  · rw [sellOf, if_neg (by decide)] at hpe
    rw [rateOf_eur] at hse
    rw [fallbackOf, if_neg (by decide)] at hfb
    have hup : jsToUpper "EUR" = "EUR" := by decide
    have heur : (fetchRatesFromTCMB fbUsd fbEur t0 (.ok payload) st).1.eur = st.eur := by
      rw [fetchRatesFromTCMB, hpe]
    refine ⟨rfl, rfl, by rw [rateOf_eur, rateOf_eur, heur], ?_, ?_⟩
    · intro t1 p2 hp2
      rw [sellOf, if_neg (by decide)] at hp2
      rw [getRate, hup, if_pos (Or.inr rfl),
        if_pos (Or.inl (by rw [rateOf_eur, heur, hse]))]
      have heur2 : (fetchRatesFromTCMB fbUsd fbEur t1 (.ok p2)
          (fetchRatesFromTCMB fbUsd fbEur t0 (.ok payload) st).1).1.eur = st.eur := by
        rw [fetchRatesFromTCMB, hp2]
        exact heur
      rw [rateOf_eur, heur2]
      exact jsNumOr_falsy st.eur 1 hse
    · intro t1
      rw [getRate, hup, if_pos (Or.inr rfl),
        if_pos (Or.inl (by rw [rateOf_eur, heur, hse]))]
      set st1 := (fetchRatesFromTCMB fbUsd fbEur t0 (.ok payload) st).1 with hst1
      have hcond : (jsTruthyNum st1.usd && jsTruthyNum st1.eur) = false := by
        rw [heur, hse, Bool.and_false]
      have hfail : (fetchRatesFromTCMB fbUsd fbEur t1 .fail st1).1 =
          { usd := some fbUsd, eur := some fbEur, lastUpdate := some t1 } := by
        rw [fetchRatesFromTCMB, hcond]
        simp
      rw [rateOf_eur, hfail, fallbackOf, if_neg (by decide)]
      exact jsNumOr_truthy fbEur 1 hfb

/-- A fetched payload with a USD sell rate but no EUR entry. -/
def payloadNoEur : TcmbPayload := ⟨some 40, none⟩

/-- The empty rate cache. -/
def stEmpty : RatesState := ⟨none, none, none⟩

/-- The cache after the successful-but-EUR-less refresh at time 100. -/
def stAfter : RatesState := ⟨some 40, none, some 100⟩

/-- Claim C10, counterexample to the claim as stated: after the refresh
described by the claim, a getRate for EUR one millisecond later — well
within the 24 h time-to-live — whose internal re-fetch throws returns
the configured fallback rate 36.20, not 1. -/
theorem getRate_fallback_after_missing_field :
    fetchRatesFromTCMB (67/2) (181/5) 100 (.ok payloadNoEur) stEmpty =
      (stAfter, true) ∧
    (getRate (67/2) (181/5) 101 .fail stAfter "EUR").1 = 181/5 ∧
    (181/5 : ℚ) ≠ 1 := by
  refine ⟨rfl, ?_, by norm_num⟩
  have hup : jsToUpper "EUR" = "EUR" := by decide
  have hcond : (jsTruthyNum stAfter.usd && jsTruthyNum stAfter.eur) = false := by
    rw [show stAfter.eur = none from rfl]
    rw [show jsTruthyNum none = false from rfl, Bool.and_false]
  have hfail : (fetchRatesFromTCMB (67/2) (181/5) 101 .fail stAfter).1 =
      { usd := some (67/2), eur := some (181/5), lastUpdate := some 101 } := by
    rw [fetchRatesFromTCMB, hcond]
    simp
  rw [getRate, hup, if_pos (Or.inr rfl),
    if_pos (Or.inl (by rw [rateOf_eur]; rfl)),
    rateOf_eur, hfail]
  exact jsNumOr_truthy _ 1 (by norm_num)

/-- A fetched payload with an EUR sell rate but no USD entry. -/
def payloadNoUsd : TcmbPayload := ⟨none, some 44⟩

/-- Witness for claim C10 at a concrete EUR-less refresh and a concrete
USD-less refresh: each reports success with a fresh lastUpdate and no
fallback, a follow-up getRate for the missing currency whose re-fetch
again lacks the entry returns 1, and one whose re-fetch throws returns
the fallback rate of that currency. -/
theorem missing_forexselling_semantics_amended_witness :
    (fetchRatesFromTCMB (67/2) (181/5) 100 (.ok payloadNoEur) stEmpty).2 = true ∧
    (fetchRatesFromTCMB (67/2) (181/5) 100
        (.ok payloadNoEur) stEmpty).1.lastUpdate = some 100 ∧
    rateOf (fetchRatesFromTCMB (67/2) (181/5) 100
        (.ok payloadNoEur) stEmpty).1 "EUR" = rateOf stEmpty "EUR" ∧
    (getRate (67/2) (181/5) 101 (.ok ⟨some 41, none⟩)
      (fetchRatesFromTCMB (67/2) (181/5) 100
        (.ok payloadNoEur) stEmpty).1 "EUR").1 = 1 ∧
    (getRate (67/2) (181/5) 101 .fail
      (fetchRatesFromTCMB (67/2) (181/5) 100
        (.ok payloadNoEur) stEmpty).1 "EUR").1 = 181/5 ∧
    (fetchRatesFromTCMB (67/2) (181/5) 100 (.ok payloadNoUsd) stEmpty).2 = true ∧
    (fetchRatesFromTCMB (67/2) (181/5) 100
        (.ok payloadNoUsd) stEmpty).1.lastUpdate = some 100 ∧
    rateOf (fetchRatesFromTCMB (67/2) (181/5) 100
        (.ok payloadNoUsd) stEmpty).1 "USD" = rateOf stEmpty "USD" ∧
    (getRate (67/2) (181/5) 101 (.ok ⟨none, some 45⟩)
      (fetchRatesFromTCMB (67/2) (181/5) 100
        (.ok payloadNoUsd) stEmpty).1 "USD").1 = 1 ∧
    (getRate (67/2) (181/5) 101 .fail
      (fetchRatesFromTCMB (67/2) (181/5) 100
        (.ok payloadNoUsd) stEmpty).1 "USD").1 = 67/2 := by
  have hE := missing_forexselling_semantics_amended (67/2) (181/5) 100 stEmpty
    payloadNoEur "EUR" (Or.inr rfl) rfl rfl
    (by rw [fallbackOf, if_neg (by decide)]; norm_num)
  have hU := missing_forexselling_semantics_amended (67/2) (181/5) 100 stEmpty
    payloadNoUsd "USD" (Or.inl rfl) rfl rfl
    (by rw [fallbackOf, if_pos rfl]; norm_num)
  have hE5 := hE.2.2.2.2 101
  rw [fallbackOf, if_neg (by decide)] at hE5
  have hU5 := hU.2.2.2.2 101
  rw [fallbackOf, if_pos rfl] at hU5
  exact ⟨hE.1, hE.2.1, hE.2.2.1, hE.2.2.2.1 101 ⟨some 41, none⟩ rfl, hE5,
    hU.1, hU.2.1, hU.2.2.1, hU.2.2.2.1 101 ⟨none, some 45⟩ rfl, hU5⟩

end CrystalSync
